import Mathlib

/-!
# Verification of the 0-hummingbot graph-composition and proof-carrying-order core

Shallow embedding of the Rust sources under `src/src/composer` and
`src/src/pco`, together with proofs and refutations of the specification
claims about them.

Modelling conventions:
* Rust `u64` values are `Nat`s; where the source can wrap (release-profile
  two's-complement semantics) the wrap is written explicitly `% 2 ^ 64`.
* Rust `String`s are modelled as their UTF-8 byte sequences (`List Nat`).
* `f64` fields are modelled as their IEEE-754 64-bit patterns (`Nat`): the
  source never performs float arithmetic on them in the modelled paths; it
  only compares them and serializes their 8 little-endian bytes.
* `[u8; 32]` / `[u8; 64]` are `List Nat`; well-formedness predicates record
  the length and byte-range side conditions where a theorem needs them.
* Diagnostic payload strings inside error variants are dropped: no modelled
  behaviour depends on them.
-/

set_option autoImplicit false

namespace ZeroHb

/-! ## Byte-level primitives -/

/-- Little-endian byte encoding of a natural number in `k` bytes, modelling
Rust `to_le_bytes` on a `k`-byte integer (the value is reduced modulo
`256 ^ k`, as in the machine representation). -/
def leBytes : Nat → Nat → List Nat
  | 0, _ => []
  | k + 1, n => n % 256 :: leBytes k (n / 256)

/-- Big-endian byte encoding of a natural number in `k` bytes. -/
def beBytes : Nat → Nat → List Nat
  | 0, _ => []
  | k + 1, n => n / 256 ^ k % 256 :: beBytes k n

/-- Every entry of the list fits in a byte. -/
def allBytes (l : List Nat) : Bool := l.all fun b => decide (b < 256)

/-- The list has the length of a 32-byte hash. -/
def is32 (l : List Nat) : Bool := decide (l.length = 32)

/-! ## SHA-256 (the `sha2` crate's function, reimplemented executably)

Only ever applied, never evaluated inside a proof: the claims depend on the
byte streams fed to the hash, with SHA-256 as an opaque deterministic map. -/

/-- 32-bit rotate right. -/
def rotr (n x : Nat) : Nat := ((x >>> n) ||| (x <<< (32 - n))) % 2 ^ 32

def bigSigma0 (x : Nat) : Nat := rotr 2 x ^^^ rotr 13 x ^^^ rotr 22 x

def bigSigma1 (x : Nat) : Nat := rotr 6 x ^^^ rotr 11 x ^^^ rotr 25 x

def smallSigma0 (x : Nat) : Nat := rotr 7 x ^^^ rotr 18 x ^^^ (x >>> 3)

def smallSigma1 (x : Nat) : Nat := rotr 17 x ^^^ rotr 19 x ^^^ (x >>> 10)

def chFn (x y z : Nat) : Nat := (x &&& y) ^^^ (((x % 2 ^ 32) ^^^ (2 ^ 32 - 1)) &&& z)

def majFn (x y z : Nat) : Nat := (x &&& y) ^^^ (x &&& z) ^^^ (y &&& z)

/-- The 64 SHA-256 round constants of FIPS 180-4 (decimal). -/
def shaK : List Nat :=
  [1116352408, 1899447441, 3049323471, 3921009573, 961987163, 1508970993,
   2453635748, 2870763221, 3624381080, 310598401, 607225278, 1426881987,
   1925078388, 2162078206, 2614888103, 3248222580, 3835390401, 4022224774,
   264347078, 604807628, 770255983, 1249150122, 1555081692, 1996064986,
   2554220882, 2821834349, 2952996808, 3210313671, 3336571891, 3584528711,
   113926993, 338241895, 666307205, 773529912, 1294757372, 1396182291,
   1695183700, 1986661051, 2177026350, 2456956037, 2730485921, 2820302411,
   3259730800, 3345764771, 3516065817, 3600352804, 4094571909, 275423344,
   430227734, 506948616, 659060556, 883997877, 958139571, 1322822218,
   1537002063, 1747873779, 1955562222, 2024104815, 2227730452, 2361852424,
   2428436474, 2756734187, 3204031479, 3329325298]

/-- The eight SHA-256 initial hash values of FIPS 180-4 (decimal). -/
def shaH0 : List Nat :=
  [1779033703, 3144134277, 1013904242, 2773480762, 1359893119, 2600822924,
   528734635, 1541459225]

/-- Merkle–Damgård padding: `0x80`, zeros to 56 mod 64, 8-byte big-endian bit length. -/
def shaPad (msg : List Nat) : List Nat :=
  msg ++ 0x80 :: List.replicate ((119 - msg.length % 64) % 64) 0 ++ beBytes 8 (msg.length * 8)

/-- Group bytes into big-endian 32-bit words. -/
def bytesToWords : List Nat → List Nat
  | a :: b :: c :: d :: rest => (((a * 256 + b) * 256 + c) * 256 + d) :: bytesToWords rest
  | _ => []

/-- Split into 64-byte blocks. -/
def chunks64 (l : List Nat) : List (List Nat) :=
  if h : l = [] then []
  else
    l.take 64 :: chunks64 (l.drop 64)
termination_by l.length
decreasing_by
  simp only [List.length_drop]
  exact Nat.sub_lt (List.length_pos.mpr h) (by decide)

/-- Extend the 16 message-schedule words to 64. -/
def extendSchedule (w : Array Nat) : Array Nat :=
  (List.range 48).foldl
    (fun w i =>
      w.push ((smallSigma1 (w.getD (i + 14) 0) + w.getD (i + 9) 0 +
               smallSigma0 (w.getD (i + 1) 0) + w.getD i 0) % 2 ^ 32))
    w

/-- One SHA-256 compression round sequence over a 64-byte block. -/
def compressChunk (h : List Nat) (chunk : List Nat) : List Nat :=
  let w := extendSchedule (bytesToWords chunk).toArray
  let s := (List.range 64).foldl
    (fun s i =>
      match s with
      | [a, b, c, d, e, f, g, hh] =>
        let t1 := (hh + bigSigma1 e + chFn e f g + shaK.getD i 0 + w.getD i 0) % 2 ^ 32
        let t2 := (bigSigma0 a + majFn a b c) % 2 ^ 32
        [(t1 + t2) % 2 ^ 32, a, b, c, (d + t1) % 2 ^ 32, e, f, g]
      | other => other)
    h
  List.zipWith (fun x y => (x + y) % 2 ^ 32) h s

/-- SHA-256 of a byte sequence, as 32 output bytes. -/
def sha256 (msg : List Nat) : List Nat :=
  (((chunks64 (shaPad (msg.map (· % 256)))).foldl compressChunk shaH0).map (beBytes 4)).flatten

/-! ## PCO data model (`src/src/pco/mod.rs`) -/

/-- `OrderSide`. -/
inductive OrderSide where
  | buy
  | sell
deriving DecidableEq, Repr

/-- `OrderType`. -/
inductive OrderType where
  | market
  | limit
  | stopLoss
  | takeProfit
deriving DecidableEq, Repr

/-- `Order`. String fields are UTF-8 byte sequences; `quantity`, `price` and
`stop_price` are IEEE-754 bit patterns (see the module comment). -/
structure Order where
  symbol : List Nat
  side : OrderSide
  order_type : OrderType
  quantity : Nat
  price : Option Nat
  stop_price : Option Nat
  time_in_force : List Nat
  client_order_id : List Nat
deriving DecidableEq, Repr

/-- Byte written for the order side in `Order::to_bytes`. -/
def sideByte : OrderSide → Nat
  | .buy => 0
  | .sell => 1

/-- Byte written for the order type in `Order::to_bytes`. -/
def typeByte : OrderType → Nat
  | .market => 0
  | .limit => 1
  | .stopLoss => 2
  | .takeProfit => 3

/-- Presence-flag encoding of an optional `f64`: `1` followed by the 8
little-endian bytes when present, a single `0` when absent.  Used by
`Order::to_bytes` for `price`/`stop_price` and by `MarketDataInput::hash`
for `volatility`/`position`. -/
def optF64Bytes : Option Nat → List Nat
  | some p => 1 :: leBytes 8 p
  | none => [0]

/-- `Order::to_bytes`: symbol NUL-terminated, side byte, type byte, quantity
(8 bytes LE), optional price and stop price with presence flags,
time-in-force NUL-terminated, client order id (not terminated). -/
def Order.to_bytes (o : Order) : List Nat :=
  o.symbol ++ 0 :: sideByte o.side :: typeByte o.order_type ::
    (leBytes 8 o.quantity ++ optF64Bytes o.price ++ optF64Bytes o.stop_price ++
      (o.time_in_force ++ 0 :: o.client_order_id))

/-- `ProofCarryingOrder`. `timestamp` is the `u64` of seconds since epoch;
`agent_pubkey` and `signature` are raw byte lists (32 and 64 bytes in every
value the Rust type can hold; the length side conditions appear as
hypotheses where a proof needs them). -/
structure ProofCarryingOrder where
  order : Order
  strategy_hash : List Nat
  input_hash : List Nat
  execution_trace : List (List Nat)
  timestamp : Nat
  agent_pubkey : List Nat
  signature : List Nat
deriving DecidableEq, Repr

/-- `PcoError` (payload strings dropped; no modelled behaviour reads them). -/
inductive PcoErr where
  | invalidSignature
  | invalidPublicKey
  | invalidExecutionTrace
  | strategyHashMismatch
  | inputHashMismatch
  | timestampError
  | serializationError
deriving DecidableEq, Repr

/-- `ProofCarryingOrder::build_message_static`: order bytes, strategy hash,
input hash, each trace entry in order, timestamp (8 bytes LE), agent
public key. -/
def build_message_static (order : Order) (strategy_hash input_hash : List Nat)
    (execution_trace : List (List Nat)) (timestamp : Nat) (agent_pubkey : List Nat) :
    List Nat :=
  order.to_bytes ++ strategy_hash ++ input_hash ++ execution_trace.flatten ++
    leBytes 8 timestamp ++ agent_pubkey

/-- `ProofCarryingOrder::build_message`. -/
def ProofCarryingOrder.build_message (p : ProofCarryingOrder) : List Nat :=
  build_message_static p.order p.strategy_hash p.input_hash p.execution_trace
    p.timestamp p.agent_pubkey

/-- Wrapping `u64` subtraction (release-profile semantics of `a - b`; in the
debug profile the same expression panics on underflow). -/
def wrapSub (a b : Nat) : Nat := (a % 2 ^ 64 + 2 ^ 64 - b % 2 ^ 64) % 2 ^ 64

/-- `ProofCarryingOrder::verify_timestamp`.  `now` models the
`SystemTime::now()` reading.  The source computes `now - self.timestamp`
with `u64` arithmetic even when `self.timestamp` exceeds `now`, which is
modelled by `wrapSub`. -/
def ProofCarryingOrder.verify_timestamp (p : ProofCarryingOrder)
    (now max_age_secs : Nat) : Except PcoErr Bool :=
  if p.timestamp > (now + 60) % 2 ^ 64 then .error .timestampError
  else if wrapSub now p.timestamp > max_age_secs then .error .timestampError
  else .ok true

/-- `MarketDataInput` (float fields as bit patterns). -/
structure MarketDataInput where
  timestamp : Nat
  symbol : List Nat
  best_bid : Nat
  best_ask : Nat
  bid_size : Nat
  ask_size : Nat
  mid_price : Nat
  volatility : Option Nat
  position : Option Nat
deriving DecidableEq, Repr

/-- `MarketDataInput::hash`: SHA-256 over the fields in declaration order,
optional fields with a one-byte presence flag. -/
def MarketDataInput.hash (m : MarketDataInput) : List Nat :=
  sha256 (leBytes 8 m.timestamp ++ m.symbol ++ leBytes 8 m.best_bid ++
    leBytes 8 m.best_ask ++ leBytes 8 m.bid_size ++ leBytes 8 m.ask_size ++
    leBytes 8 m.mid_price ++ optF64Bytes m.volatility ++ optF64Bytes m.position)

/-! ## PCO builder (`src/src/pco/builder.rs`)

Ed25519 signing is external to this repository (the `ed25519_dalek` crate);
a signing key is modelled as the public key together with the signature
function it induces on messages. -/

/-- A signing capability: 32-byte public key and the signature map. -/
structure SigningKey where
  pubkey : List Nat
  sign : List Nat → List Nat

/-- `ProofCarryingOrder::new` (`now` models `SystemTime::now()`). -/
def ProofCarryingOrder.new (order : Order) (strategy_hash input_hash : List Nat)
    (execution_trace : List (List Nat)) (key : SigningKey) (now : Nat) :
    ProofCarryingOrder :=
  { order := order
    strategy_hash := strategy_hash
    input_hash := input_hash
    execution_trace := execution_trace
    timestamp := now
    agent_pubkey := key.pubkey
    signature := key.sign (build_message_static order strategy_hash input_hash
      execution_trace now key.pubkey) }

/-- `PcoBuilder::hash_node_name`: SHA-256 of the node name. -/
def hash_node_name (name : List Nat) : List Nat := sha256 name

/-- `PcoBuilder` state. -/
structure PcoBuilder where
  signing_key : SigningKey
  execution_trace : List (List Nat)
  node_names : List (List Nat)

/-- `PcoBuilder::record_node`. -/
def PcoBuilder.record_node (b : PcoBuilder) (node_name node_hash : List Nat) :
    PcoBuilder :=
  { b with execution_trace := b.execution_trace ++ [node_hash],
           node_names := b.node_names ++ [node_name] }

/-- `PcoBuilder::build`: fails when no nodes were recorded, otherwise signs. -/
def PcoBuilder.build (b : PcoBuilder) (order : Order) (strategy_hash : List Nat)
    (market_data : MarketDataInput) (now : Nat) :
    Except PcoErr ProofCarryingOrder :=
  if b.execution_trace.isEmpty then .error .invalidExecutionTrace
  else .ok (ProofCarryingOrder.new order strategy_hash market_data.hash
    b.execution_trace b.signing_key now)

/-- `BatchPcoBuilder` state. -/
structure BatchPcoBuilder where
  signing_key : SigningKey
  strategy_hash : List Nat
  base_trace : List (List Nat)

/-- `BatchPcoBuilder::record_shared_node`. -/
def BatchPcoBuilder.record_shared_node (b : BatchPcoBuilder) (node_name : List Nat) :
    BatchPcoBuilder :=
  { b with base_trace := b.base_trace ++ [hash_node_name node_name] }

/-- `BatchPcoBuilder::build_for_order`: shared prefix plus hashed per-order
suffix; fails when the combined trace is empty. -/
def BatchPcoBuilder.build_for_order (b : BatchPcoBuilder) (order : Order)
    (market_data : MarketDataInput) (additional_nodes : List (List Nat)) (now : Nat) :
    Except PcoErr ProofCarryingOrder :=
  let trace := b.base_trace ++ additional_nodes.map hash_node_name
  if trace.isEmpty then .error .invalidExecutionTrace
  else .ok (ProofCarryingOrder.new order b.strategy_hash market_data.hash
    trace b.signing_key now)

/-! ## PCO verifier (`src/src/pco/verifier.rs`) -/

/-- Advisory warnings pushed by `PcoVerifier::verify` (message text dropped). -/
inductive WarnMsg where
  | unknownStrategy
  | unknownAgent
deriving DecidableEq, Repr

/-- Hard-failure diagnostics pushed by `PcoVerifier::verify` (text dropped,
the error value carried by the `Err` branch kept). -/
inductive ErrMsg where
  | signatureError (e : PcoErr)
  | timestampError (e : PcoErr)
  | emptyTrace
deriving DecidableEq, Repr

/-- `VerificationResult`. -/
structure VerificationResult where
  is_valid : Bool
  signature_valid : Bool
  timestamp_valid : Bool
  strategy_known : Bool
  agent_known : Bool
  trace_valid : Bool
  trace_length : Nat
  errors : List ErrMsg
  warnings : List WarnMsg
deriving DecidableEq, Repr

/-- `PcoVerifier` (the two `HashSet`s are modelled as duplicate-free lists;
only membership and emptiness are ever consulted). -/
structure PcoVerifier where
  known_strategies : List (List Nat)
  known_agents : List (List Nat)
  max_age_secs : Nat
deriving DecidableEq, Repr

/-- `PcoVerifier::new`. -/
def PcoVerifier.new : PcoVerifier := ⟨[], [], 3600⟩

/-- `PcoVerifier::with_max_age`. -/
def PcoVerifier.with_max_age (v : PcoVerifier) (max_age_secs : Nat) : PcoVerifier :=
  { v with max_age_secs := max_age_secs }

/-- `PcoVerifier::register_strategy` (`HashSet::insert`). -/
def PcoVerifier.register_strategy (v : PcoVerifier) (strategy_hash : List Nat) :
    PcoVerifier :=
  if strategy_hash ∈ v.known_strategies then v
  else { v with known_strategies := v.known_strategies ++ [strategy_hash] }

/-- `PcoVerifier::register_agent` (`HashSet::insert`). -/
def PcoVerifier.register_agent (v : PcoVerifier) (agent_pubkey : List Nat) :
    PcoVerifier :=
  if agent_pubkey ∈ v.known_agents then v
  else { v with known_agents := v.known_agents ++ [agent_pubkey] }

/-- `PcoVerifier::verify`.  The outcome of step 1 is passed in as
`sigResult`: `pco.verify_signature()` calls into the external `ed25519_dalek`
crate, so the Ed25519 computation itself is outside the embedding; every
use of its result inside `verify` is modelled exactly.  `now` feeds the
step-2 call to `verify_timestamp`. -/
def PcoVerifier.verify (v : PcoVerifier) (sigResult : Except PcoErr Bool)
    (now : Nat) (pco : ProofCarryingOrder) : VerificationResult :=
  let sigValid := match sigResult with
    | .ok b => b
    | .error _ => false
  let sigErrs : List ErrMsg := match sigResult with
    | .error e => [.signatureError e]
    | _ => []
  let tsr := pco.verify_timestamp now v.max_age_secs
  let tsValid := match tsr with
    | .ok b => b
    | .error _ => false
  let tsErrs : List ErrMsg := match tsr with
    | .error e => [.timestampError e]
    | _ => []
  let strategyKnown := decide (pco.strategy_hash ∈ v.known_strategies)
  let stratWarns : List WarnMsg :=
    if !strategyKnown && !v.known_strategies.isEmpty then [.unknownStrategy] else []
  let agentKnown := decide (pco.agent_pubkey ∈ v.known_agents)
  let agentWarns : List WarnMsg :=
    if !agentKnown && !v.known_agents.isEmpty then [.unknownAgent] else []
  let traceValid := !pco.execution_trace.isEmpty
  let traceErrs : List ErrMsg :=
    if pco.execution_trace.isEmpty then [.emptyTrace] else []
  { is_valid := sigValid && tsValid && traceValid
    signature_valid := sigValid
    timestamp_valid := tsValid
    strategy_known := strategyKnown
    agent_known := agentKnown
    trace_valid := traceValid
    trace_length := if pco.execution_trace.isEmpty then 0 else pco.execution_trace.length
    errors := sigErrs ++ tsErrs ++ traceErrs
    warnings := stratWarns ++ agentWarns }

/-- Absolute `u64` timestamp difference computed by `verify_same_execution`. -/
def tsDiff (p r : ProofCarryingOrder) : Nat :=
  if p.timestamp > r.timestamp then p.timestamp - r.timestamp
  else r.timestamp - p.timestamp

/-- Loop body of `verify_same_execution` over `pcos[1..]`, comparing each
element against the reference `r = pcos[0]`. -/
def sameExecChecks (r : ProofCarryingOrder) :
    List ProofCarryingOrder → Except PcoErr Bool
  | [] => .ok true
  | p :: rest =>
    if p.strategy_hash ≠ r.strategy_hash then .error .strategyHashMismatch
    else if p.input_hash ≠ r.input_hash then .error .inputHashMismatch
    else if p.agent_pubkey ≠ r.agent_pubkey then .error .invalidPublicKey
    else if tsDiff p r > 1 then .error .timestampError
    else sameExecChecks r rest

/-- `PcoVerifier::verify_same_execution`. -/
def PcoVerifier.verify_same_execution (_v : PcoVerifier)
    (pcos : List ProofCarryingOrder) : Except PcoErr Bool :=
  if pcos.length < 2 then .ok true
  else
    match pcos with
    | [] => .ok true
    | r :: rest => sameExecChecks r rest

/-! ## Graph composer (`src/src/composer/mod.rs`)

The `nodes: Vec<ComposedNode>` field of the Rust `GraphComposer` is never
populated by any modelled operation (only `new` touches it), so it is
omitted. -/

/-- `ComposerError` (payload strings dropped). -/
inductive ComposerErr where
  | graphNotFound
  | cycleDetected
  | invalidConnection
  | outputNotFound
  | inputNotFound
  | typeMismatch
  | linkError
deriving DecidableEq, Repr

/-- `SubgraphMetadata`. -/
structure SubgraphMetadata where
  hash : List Nat
  name : List Nat
  inputs : List (List Nat)
  outputs : List (List Nat)
  description : List Nat
deriving DecidableEq, Repr

/-- `SubgraphConnection`. -/
structure SubgraphConnection where
  from_graph : List Nat
  from_output : List Nat
  to_graph : List Nat
  to_input : List Nat
deriving DecidableEq, Repr

/-- `GraphComposer` (its `HashMap<[u8;32], SubgraphMetadata>` as an
association list with insert-overwrites semantics). -/
structure GraphComposer where
  graphs : List (List Nat × SubgraphMetadata)
  connections : List SubgraphConnection
deriving DecidableEq, Repr

/-- `HashMap::get` / `contains_key` on the graph map. -/
def lookupGraph (gs : List (List Nat × SubgraphMetadata)) (h : List Nat) :
    Option SubgraphMetadata :=
  (gs.find? fun p => decide (p.1 = h)).map (·.2)

/-- `GraphComposer::new`. -/
def GraphComposer.new : GraphComposer := ⟨[], []⟩

/-- `GraphComposer::import` (`HashMap::insert`, keyed by the metadata hash). -/
def GraphComposer.import (s : GraphComposer) (m : SubgraphMetadata) : GraphComposer :=
  { s with graphs := (m.hash, m) :: s.graphs.filter fun p => !decide (p.1 = m.hash) }

/-- `GraphComposer::connect`: checks both graphs exist and the named output
and input ports exist, then pushes the connection.  (There is no check
against an existing connection to the same `(to_graph, to_input)`.) -/
def GraphComposer.connect (s : GraphComposer) (from_graph : List Nat)
    (from_output : List Nat) (to_graph : List Nat) (to_input : List Nat) :
    Except ComposerErr GraphComposer :=
  match lookupGraph s.graphs from_graph with
  | none => .error .graphNotFound
  | some from_meta =>
    match lookupGraph s.graphs to_graph with
    | none => .error .graphNotFound
    | some to_meta =>
      if from_output ∉ from_meta.outputs then .error .outputNotFound
      else if to_input ∉ to_meta.inputs then .error .inputNotFound
      else .ok { s with connections := s.connections ++
        [{ from_graph := from_graph, from_output := from_output,
           to_graph := to_graph, to_input := to_input }] }

/-- `ComposedGraph` (the Rust struct's `hash` field stores the result of
`calculate_hash`, modelled as the function below). -/
structure ComposedGraph where
  name : List Nat
  subgraphs : List SubgraphMetadata
  connections : List SubgraphConnection
deriving DecidableEq, Repr

/-- The four identifying fields of a connection, as absorbed by the hasher. -/
def connUpdateBytes (c : SubgraphConnection) : List Nat :=
  c.from_graph ++ c.from_output ++ c.to_graph ++ c.to_input

/-- `ComposedGraph::calculate_hash`: the incremental `Sha256::update` calls
are modelled by accumulating the absorbed bytes (name, then each subgraph
hash, then each connection's fields) and hashing the result. -/
def ComposedGraph.calculate_hash (g : ComposedGraph) : List Nat :=
  sha256 (g.connections.foldl (fun acc c => acc ++ connUpdateBytes c)
    (g.subgraphs.foldl (fun acc sg => acc ++ sg.hash) g.name))

/-! ## Graph linker (`src/src/composer/linker.rs`) -/

/-- `LinkError` (payload strings dropped). -/
inductive LinkErr where
  | nodeNotFound
  | portNotFound
  | shapeMismatch
  | alreadyConnected
  | invalidGraph
deriving DecidableEq, Repr

/-- `PortInfo`. -/
structure PortInfo where
  name : List Nat
  shape : List Nat
  required : Bool
deriving DecidableEq, Repr

/-- `NodeInfo`. -/
structure NodeInfo where
  id : List Nat
  name : List Nat
  inputs : List PortInfo
  outputs : List PortInfo
deriving DecidableEq, Repr

/-- `Connection` between linker nodes. -/
structure Connection where
  from_node : List Nat
  from_port : Nat
  to_node : List Nat
  to_port : Nat
deriving DecidableEq, Repr

/-- `GraphLinker` (both `HashMap`s as association lists). -/
structure GraphLinker where
  nodes : List (List Nat × NodeInfo)
  connections : List Connection
  connected_inputs : List ((List Nat × Nat) × List Nat)
deriving DecidableEq, Repr

/-- `HashMap::get` on the node map. -/
def lookupNode (s : GraphLinker) (h : List Nat) : Option NodeInfo :=
  (s.nodes.find? fun p => decide (p.1 = h)).map (·.2)

/-- `HashMap::get` / `contains_key` on `connected_inputs`. -/
def lookupInput (s : GraphLinker) (k : List Nat × Nat) : Option (List Nat) :=
  (s.connected_inputs.find? fun p => decide (p.1 = k)).map (·.2)

/-- `GraphLinker::new`. -/
def GraphLinker.new : GraphLinker := ⟨[], [], []⟩

/-- `GraphLinker::register_node` (`HashMap::insert`, keyed by the node id). -/
def GraphLinker.register_node (s : GraphLinker) (node : NodeInfo) : GraphLinker :=
  { s with nodes := (node.id, node) :: s.nodes.filter fun p => !decide (p.1 = node.id) }

/-- `GraphLinker::connect`: node existence, port bounds, double-binding and
shape compatibility checks in source order.  The post-state is returned
alongside the result; every early `return Err` leaves the state unchanged. -/
def GraphLinker.connect (s : GraphLinker) (c : Connection) :
    Except LinkErr Unit × GraphLinker :=
  match lookupNode s c.from_node with
  | none => (.error .nodeNotFound, s)
  | some fn =>
    match lookupNode s c.to_node with
    | none => (.error .nodeNotFound, s)
    | some tn =>
      if h1 : c.from_port ≥ fn.outputs.length then (.error .portNotFound, s)
      else if h2 : c.to_port ≥ tn.inputs.length then (.error .portNotFound, s)
      else if (lookupInput s (c.to_node, c.to_port)).isSome then
        (.error .alreadyConnected, s)
      else
        let from_shape := (fn.outputs.get ⟨c.from_port, Nat.lt_of_not_le h1⟩).shape
        let to_shape := (tn.inputs.get ⟨c.to_port, Nat.lt_of_not_le h2⟩).shape
        if from_shape ≠ [] ∧ to_shape ≠ [] ∧ from_shape ≠ to_shape then
          (.error .shapeMismatch, s)
        else
          (.ok (), { s with
            connected_inputs := s.connected_inputs ++ [((c.to_node, c.to_port), c.from_node)],
            connections := s.connections ++ [c] })

/-! ## JSON serialization (`to_json` / `from_json`, serde data model)

`ProofCarryingOrder::to_json`/`from_json` delegate to `serde_json` over the
derived `Serialize`/`Deserialize` impls.  The encoding is modelled at the
JSON-document level:

* structs become objects keyed by the Rust field names, unit enum variants
  become their name strings, `Option` uses `null` for `None`;
* `u64`/`u8` become integer tokens (`Json.unum`), decoded with the serde
  range checks;
* a *finite* `f64` becomes a decimal token.  `serde_json` prints the
  shortest decimal that parses back to the same double (Ryu) and parses it
  back exactly, so the token is modelled as carrying the bit pattern
  (`Json.fnum`); two distinct finite doubles always yield distinct tokens.
  A non-finite `f64` (NaN or an infinity) is serialized by `serde_json` as
  `null`, and deserializing `null` into a plain `f64` field fails --
  `Json.null` and the `finiteBits` guard model exactly this. -/

/-- JSON documents. -/
inductive Json where
  | null
  | unum (n : Nat)
  | fnum (bits : Nat)
  | str (s : List Nat)
  | arr (xs : List Json)
  | obj (fields : List (List Nat × Json))

/-- The exponent field of the IEEE-754 bit pattern is not all-ones:
the double is neither NaN nor an infinity. -/
def finiteBits (b : Nat) : Bool := decide (b / 2 ^ 52 % 2 ^ 11 ≠ 2047)

/-- serde serialization of an `f64`. -/
def f64Json (bits : Nat) : Json := if finiteBits bits then .fnum bits else .null

/-- serde serialization of an `Option<f64>`. -/
def optF64Json : Option Nat → Json
  | none => .null
  | some b => f64Json b

def keySymbol : List Nat := [115, 121, 109, 98, 111, 108]
def keySide : List Nat := [115, 105, 100, 101]
def keyOrderType : List Nat := [111, 114, 100, 101, 114, 95, 116, 121, 112, 101]
def keyQuantity : List Nat := [113, 117, 97, 110, 116, 105, 116, 121]
def keyPrice : List Nat := [112, 114, 105, 99, 101]
def keyStopPrice : List Nat := [115, 116, 111, 112, 95, 112, 114, 105, 99, 101]
def keyTif : List Nat := [116, 105, 109, 101, 95, 105, 110, 95, 102, 111, 114, 99, 101]
def keyCid : List Nat := [99, 108, 105, 101, 110, 116, 95, 111, 114, 100, 101, 114, 95, 105, 100]
def keyOrder : List Nat := [111, 114, 100, 101, 114]
def keyStrategyHash : List Nat := [115, 116, 114, 97, 116, 101, 103, 121, 95, 104, 97, 115, 104]
def keyInputHash : List Nat := [105, 110, 112, 117, 116, 95, 104, 97, 115, 104]
def keyTrace : List Nat := [101, 120, 101, 99, 117, 116, 105, 111, 110, 95, 116, 114, 97, 99, 101]
def keyTimestamp : List Nat := [116, 105, 109, 101, 115, 116, 97, 109, 112]
def keyPubkey : List Nat := [97, 103, 101, 110, 116, 95, 112, 117, 98, 107, 101, 121]
def keySignature : List Nat := [115, 105, 103, 110, 97, 116, 117, 114, 101]
def strBuy : List Nat := [66, 117, 121]
def strSell : List Nat := [83, 101, 108, 108]
def strMarket : List Nat := [77, 97, 114, 107, 101, 116]
def strLimit : List Nat := [76, 105, 109, 105, 116]
def strStopLoss : List Nat := [83, 116, 111, 112, 76, 111, 115, 115]
def strTakeProfit : List Nat := [84, 97, 107, 101, 80, 114, 111, 102, 105, 116]

/-- serde serialization of `OrderSide` (externally tagged unit variant). -/
def sideJson : OrderSide → Json
  | .buy => .str strBuy
  | .sell => .str strSell

/-- serde serialization of `OrderType`. -/
def typeJson : OrderType → Json
  | .market => .str strMarket
  | .limit => .str strLimit
  | .stopLoss => .str strStopLoss
  | .takeProfit => .str strTakeProfit

/-- serde serialization of a byte array as a sequence of integers. -/
def bytesJson (l : List Nat) : Json := .arr (l.map .unum)

/-- serde serialization of `Order`. -/
def orderJson (o : Order) : Json :=
  .obj [(keySymbol, .str o.symbol), (keySide, sideJson o.side),
        (keyOrderType, typeJson o.order_type), (keyQuantity, f64Json o.quantity),
        (keyPrice, optF64Json o.price), (keyStopPrice, optF64Json o.stop_price),
        (keyTif, .str o.time_in_force), (keyCid, .str o.client_order_id)]

/-- `ProofCarryingOrder::to_json` at the document level (the pretty-printed
string is the unambiguous rendering of this document). -/
def ProofCarryingOrder.to_json (p : ProofCarryingOrder) : Json :=
  .obj [(keyOrder, orderJson p.order), (keyStrategyHash, bytesJson p.strategy_hash),
        (keyInputHash, bytesJson p.input_hash),
        (keyTrace, .arr (p.execution_trace.map bytesJson)),
        (keyTimestamp, .unum p.timestamp), (keyPubkey, bytesJson p.agent_pubkey),
        (keySignature, bytesJson p.signature)]

/-- Field lookup in a JSON object (first occurrence). -/
def jlook : List (List Nat × Json) → List Nat → Option Json
  | [], _ => none
  | (k, v) :: rest, key => if k = key then some v else jlook rest key

/-- Deserialize an `f64` field (fails on anything but a finite number). -/
def decodeF64 : Json → Option Nat
  | .fnum b => if finiteBits b then some b else none
  | _ => none

/-- Deserialize an `Option<f64>` field (`null` becomes `None`). -/
def decodeOptF64 : Json → Option (Option Nat)
  | .null => some none
  | .fnum b => if finiteBits b then some (some b) else none
  | _ => none

/-- Deserialize a `u8` (serde range check). -/
def decodeByte : Json → Option Nat
  | .unum n => if n < 256 then some n else none
  | _ => none

/-- Deserialize a `u64` (serde range check). -/
def decodeU64 : Json → Option Nat
  | .unum n => if n < 2 ^ 64 then some n else none
  | _ => none

/-- Deserialize a `String`. -/
def decodeStr : Json → Option (List Nat)
  | .str s => some s
  | _ => none

/-- Deserialize `OrderSide`. -/
def decodeSide : Json → Option OrderSide
  | .str s =>
    if s = strBuy then some .buy
    else if s = strSell then some .sell
    else none
  | _ => none

/-- Deserialize `OrderType`. -/
def decodeType : Json → Option OrderType
  | .str s =>
    if s = strMarket then some .market
    else if s = strLimit then some .limit
    else if s = strStopLoss then some .stopLoss
    else if s = strTakeProfit then some .takeProfit
    else none
  | _ => none

/-- Element-wise decoding of a JSON sequence (how serde deserializes
`Vec`/array contents: in order, failing on the first bad element). -/
def decodeSeq {α : Type} (f : Json → Option α) : List Json → Option (List α)
  | [] => some []
  | j :: rest => (f j).bind fun a => (decodeSeq f rest).bind fun as => some (a :: as)

/-- Deserialize a fixed-length byte array (`[u8; n]`): a sequence of exactly
`n` in-range integers. -/
def decodeBytes (n : Nat) : Json → Option (List Nat)
  | .arr xs =>
    (decodeSeq decodeByte xs).bind fun l => if l.length = n then some l else none
  | _ => none

/-- Deserialize `Vec<[u8; 32]>`. -/
def decodeTrace : Json → Option (List (List Nat))
  | .arr xs => decodeSeq (decodeBytes 32) xs
  | _ => none

/-- Deserialize `Order`. -/
def decodeOrder : Json → Option Order
  | .obj fs => do
    let symbol ← (jlook fs keySymbol).bind decodeStr
    let side ← (jlook fs keySide).bind decodeSide
    let order_type ← (jlook fs keyOrderType).bind decodeType
    let quantity ← (jlook fs keyQuantity).bind decodeF64
    let price ← (jlook fs keyPrice).bind decodeOptF64
    let stop_price ← (jlook fs keyStopPrice).bind decodeOptF64
    let time_in_force ← (jlook fs keyTif).bind decodeStr
    let client_order_id ← (jlook fs keyCid).bind decodeStr
    pure { symbol, side, order_type, quantity, price, stop_price,
           time_in_force, client_order_id }
  | _ => none

/-- `ProofCarryingOrder::from_json` at the document level. -/
def ProofCarryingOrder.from_json : Json → Option ProofCarryingOrder
  | .obj fs => do
    let order ← (jlook fs keyOrder).bind decodeOrder
    let strategy_hash ← (jlook fs keyStrategyHash).bind (decodeBytes 32)
    let input_hash ← (jlook fs keyInputHash).bind (decodeBytes 32)
    let execution_trace ← (jlook fs keyTrace).bind decodeTrace
    let timestamp ← (jlook fs keyTimestamp).bind decodeU64
    let agent_pubkey ← (jlook fs keyPubkey).bind (decodeBytes 32)
    let signature ← (jlook fs keySignature).bind (decodeBytes 64)
    pure { order, strategy_hash, input_hash, execution_trace, timestamp,
           agent_pubkey, signature }
  | _ => none

/-! ## Well-formedness side conditions

Every value the Rust types can hold satisfies these; they record, inside
the `List Nat` embedding, the machine-representation facts ( `u64` bounds,
byte ranges, `[u8; 32]`/`[u8; 64]` lengths) a given theorem needs. -/

/-- The optional value, when present, fits in a `u64`. -/
def optU64 : Option Nat → Bool
  | none => true
  | some p => decide (p < 2 ^ 64)

/-- The numeric fields of an `Order` fit their machine widths. -/
def orderWf (o : Order) : Bool :=
  decide (o.quantity < 2 ^ 64) && optU64 o.price && optU64 o.stop_price

/-- Machine-width facts for a `ProofCarryingOrder`: numeric bounds and the
`[u8; 32]`-length of the hash fields, every trace entry and the public key. -/
def pcoWf (p : ProofCarryingOrder) : Bool :=
  orderWf p.order && decide (p.timestamp < 2 ^ 64) &&
    is32 p.strategy_hash && is32 p.input_hash &&
    p.execution_trace.all is32 && is32 p.agent_pubkey

/-- The optional bit pattern, when present, is a finite double. -/
def optFinite : Option Nat → Bool
  | none => true
  | some b => finiteBits b

/-- Side conditions for the JSON round trip: finite floats, `u64`-ranged
timestamp, genuine byte contents and `[u8; n]` lengths everywhere. -/
def pcoJsonWf (p : ProofCarryingOrder) : Bool :=
  finiteBits p.order.quantity && optFinite p.order.price &&
    optFinite p.order.stop_price && decide (p.timestamp < 2 ^ 64) &&
    allBytes p.strategy_hash && is32 p.strategy_hash &&
    allBytes p.input_hash && is32 p.input_hash &&
    p.execution_trace.all (fun t => allBytes t && is32 t) &&
    allBytes p.agent_pubkey && is32 p.agent_pubkey &&
    allBytes p.signature && decide (p.signature.length = 64)

/-! ## Definitions written from the specification's words

For the refinement claims these re-state the byte layouts the spec
describes, independently of the source translation above; the theorems
below compare the two. -/

/-- Modelled from the spec, claim C2 as stated: the Order's canonical
encoding with **every** string field (symbol, time_in_force,
client_order_id) NUL-terminated, fixed-width little-endian numerics,
one-byte presence flags for the optional prices. -/
def claimedOrderBytes (o : Order) : List Nat :=
  (o.symbol ++ [0]) ++ [sideByte o.side] ++ [typeByte o.order_type] ++
    leBytes 8 o.quantity ++ optF64Bytes o.price ++ optF64Bytes o.stop_price ++
    (o.time_in_force ++ [0]) ++ (o.client_order_id ++ [0])

/-- Modelled from the spec, claim C2 as stated: the signing message built
from `claimedOrderBytes` followed by strategy hash, input hash, trace
entries in order, 8-byte little-endian timestamp and agent public key. -/
def claimedMessage (p : ProofCarryingOrder) : List Nat :=
  claimedOrderBytes p.order ++ p.strategy_hash ++ p.input_hash ++
    (p.execution_trace.map id).flatten ++ leBytes 8 p.timestamp ++ p.agent_pubkey

/-- The amended C2 layout: as `claimedMessage` but with the trailing
client-order-id left unterminated, matching the source. -/
def amendedMessage (p : ProofCarryingOrder) : List Nat :=
  ((p.order.symbol ++ [0]) ++ [sideByte p.order.side] ++ [typeByte p.order.order_type] ++
    leBytes 8 p.order.quantity ++ optF64Bytes p.order.price ++
    optF64Bytes p.order.stop_price ++ (p.order.time_in_force ++ [0]) ++
    p.order.client_order_id) ++
  p.strategy_hash ++ p.input_hash ++ (p.execution_trace.map id).flatten ++
    leBytes 8 p.timestamp ++ p.agent_pubkey

/-- Modelled from the spec, claim C7: the composed-graph hash input stream
as described -- name bytes, then each subgraph's hash in the stored order,
then each connection's four identifying fields in list order. -/
def specHashStream (g : ComposedGraph) : List Nat :=
  g.name ++ (g.subgraphs.map SubgraphMetadata.hash).flatten ++
    (g.connections.map connUpdateBytes).flatten

/-! ## Concrete sample values

Used by the closed counterexample and witness theorems below.  All byte
lists are valid UTF-8 where they model Rust `String`s (`[115]` is `"s"`,
`[120]` is `"x"`, `[120, 65]` is `"xA"`, `[113, 65, ..., 65]` is
`"x"` followed by 32 `"A"`s, and so on). -/

def h01 : List Nat := List.replicate 32 1
def h02 : List Nat := List.replicate 32 2
def h03 : List Nat := List.replicate 32 3
def h65 : List Nat := List.replicate 32 65
def h66 : List Nat := List.replicate 32 66
def h67 : List Nat := List.replicate 32 67
def h68 : List Nat := List.replicate 32 68
def sig0 : List Nat := List.replicate 64 0

/-- A plain limit order (`"BTC"`, `"GTC"`, id `"t-1"`). -/
def cOrder : Order :=
  ⟨[66, 84, 67], .buy, .limit, 0, some 0, none, [71, 84, 67], [116, 45, 49]⟩

/-- A sample PCO with the given timestamp. -/
def pcoT (ts : Nat) : ProofCarryingOrder := ⟨cOrder, h65, h66, [h67], ts, h68, sig0⟩

/-- A signing capability returning a fixed signature (the claims settled
here do not depend on the signature bytes). -/
def key0 : SigningKey := ⟨h68, fun _ => sig0⟩

/-- A fresh builder with no recorded nodes. -/
def emptyBuilder : PcoBuilder := ⟨key0, [], []⟩

/-- A builder with one recorded node. -/
def oneNodeBuilder : PcoBuilder := PcoBuilder.record_node emptyBuilder [110] h67

/-- A batch builder with no shared nodes. -/
def emptyBatch : BatchPcoBuilder := ⟨key0, h65, []⟩

/-- A sample market snapshot. -/
def md0 : MarketDataInput := ⟨1000, [66, 84, 67], 0, 0, 0, 0, 0, none, none⟩

/-- A verifier with one registered strategy hash. -/
def v5 : PcoVerifier := PcoVerifier.new.register_strategy (List.replicate 32 9)

/-- First half of the C6 collision: client order id `"x"`, one-entry trace. -/
def p1c6 : ProofCarryingOrder :=
  ⟨⟨[115], .buy, .market, 0, none, none, [71], [120]⟩, h65, h66, [h67], 5, h68, sig0⟩

/-- Second half of the C6 collision: client order id `"x"` followed by 32
`"A"` bytes, empty trace, shifted hash fields; same signing message. -/
def p2c6 : ProofCarryingOrder :=
  ⟨⟨[115], .buy, .market, 0, none, none, [71], 120 :: h65⟩, h66, h67, [], 5, h68, sig0⟩

/-- A PCO whose quantity is the canonical NaN bit pattern
(`0x7FF8000000000000`): `serde_json` serializes it as `null`. -/
def nanPco : ProofCarryingOrder :=
  ⟨⟨[115], .buy, .market, 9221120237041090560, none, none, [71], [120]⟩,
   h65, h66, [h67], 5, h68, sig0⟩

/-- Composer subgraph with outputs `"x"` and `"xA"`. -/
def metaF : SubgraphMetadata := ⟨h01, [102], [], [[120], [120, 65]], []⟩

/-- Composer subgraph whose hash is 32 `"A"` bytes, with input `"y"`. -/
def metaG : SubgraphMetadata := ⟨h65, [103], [[121]], [], []⟩

/-- Composer subgraph whose hash is 31 `"A"` bytes then `"y"`, with the
empty-string input. -/
def metaG2 : SubgraphMetadata := ⟨List.replicate 31 65 ++ [121], [104], [[]], [], []⟩

def cgName : List Nat := [99, 111, 109, 112, 111, 115, 101, 100, 95, 103, 114, 97, 112, 104]

/-- Composed graph wiring `F.x -> G.y`. -/
def cgA : ComposedGraph :=
  ⟨cgName, [metaF, metaG, metaG2], [⟨metaF.hash, [120], metaG.hash, [121]⟩]⟩

/-- Composed graph wiring `F.xA -> G2.""` -- different wiring, identical
hash input stream. -/
def cgB : ComposedGraph :=
  ⟨cgName, [metaF, metaG, metaG2], [⟨metaF.hash, [120, 65], metaG2.hash, []⟩]⟩

/-- Composer subgraph `"a"` with output `"o"`. -/
def metaA : SubgraphMetadata := ⟨h01, [97], [], [[111]], []⟩

/-- Composer subgraph `"b"` with input `"i"`. -/
def metaB : SubgraphMetadata := ⟨h02, [98], [[105]], [], []⟩

/-- Composer holding `metaA` and `metaB`, no connections yet. -/
def s0c3 : GraphComposer := (GraphComposer.new.import metaA).import metaB

/-- The connection `a.o -> b.i`. -/
def dupConn : SubgraphConnection := ⟨h01, [111], h02, [105]⟩

/-- `s0c3` after one successful `connect(a, "o", b, "i")`. -/
def s1c3 : GraphComposer := ⟨s0c3.graphs, [dupConn]⟩

/-- `s1c3` after a second, identical `connect` call. -/
def s2c3 : GraphComposer := ⟨s0c3.graphs, [dupConn, dupConn]⟩

/-- Linker node `"a"` with a single any-shape output port `"o"`. -/
def nodeA : NodeInfo := ⟨h01, [97], [], [⟨[111], [], false⟩]⟩

/-- Linker node `"b"` with a single required any-shape input port `"i"`. -/
def nodeB : NodeInfo := ⟨h02, [98], [⟨[105], [], true⟩], []⟩

/-- Linker state in which input `(b, 0)` is already bound (to node `a`),
with only `b` registered. -/
def linkerS : GraphLinker := ⟨[(h02, nodeB)], [⟨h01, 0, h02, 0⟩], [((h02, 0), h01)]⟩

/-- A connect call from an unregistered node id onto the bound input `(b, 0)`. -/
def badConn : Connection := ⟨h03, 0, h02, 0⟩

/-- Linker state with both `a` and `b` registered and input `(b, 0)` bound. -/
def linkerS2 : GraphLinker :=
  ⟨[(h01, nodeA), (h02, nodeB)], [⟨h01, 0, h02, 0⟩], [((h02, 0), h01)]⟩

/-- A well-formed second connect call onto the bound input `(b, 0)`. -/
def conn2 : Connection := ⟨h01, 0, h02, 0⟩

/-- `pcoT 5` with a different signature field: same signing message. -/
def pcoT5b : ProofCarryingOrder := { pcoT 5 with signature := List.replicate 64 1 }

/-! ## General byte-encoding lemmas -/

theorem leBytes_length (k n : Nat) : (leBytes k n).length = k := by
  induction k generalizing n with
  | zero => rfl
  | succ k ih => simp [leBytes, ih]

theorem leBytes_inj {k a b : Nat} (ha : a < 256 ^ k) (hb : b < 256 ^ k)
    (h : leBytes k a = leBytes k b) : a = b := by
  induction k generalizing a b with
  | zero =>
    rw [Nat.pow_zero, Nat.lt_one_iff] at ha hb
    omega
  | succ k ih =>
    rw [leBytes, leBytes, List.cons.injEq] at h
    have ha2 : a / 256 < 256 ^ k := by
      rw [Nat.div_lt_iff_lt_mul (by norm_num)]
      calc a < 256 ^ (k + 1) := ha
        _ = 256 ^ k * 256 := by ring
    have hb2 : b / 256 < 256 ^ k := by
      rw [Nat.div_lt_iff_lt_mul (by norm_num)]
      calc b < 256 ^ (k + 1) := hb
        _ = 256 ^ k * 256 := by ring
    have := ih ha2 hb2 h.2
    omega

/-- Splitting at the first NUL separator is unambiguous for NUL-free
prefixes. -/
theorem nulSep : ∀ {x y u v : List Nat}, 0 ∉ x → 0 ∉ y →
    x ++ 0 :: u = y ++ 0 :: v → x = y ∧ u = v := by
  intro x
  induction x with
  | nil =>
    intro y u v _ hy h
    cases y with
    | nil => simpa using h
    | cons b ys =>
      rw [List.nil_append, List.cons_append, List.cons.injEq] at h
      exact absurd (h.1 ▸ List.mem_cons_self b ys) hy
  | cons a xs ih =>
    intro y u v hx hy h
    cases y with
    | nil =>
      rw [List.nil_append, List.cons_append, List.cons.injEq] at h
      exact absurd (h.1 ▸ List.mem_cons_self a xs) hx
    | cons b ys =>
      rw [List.cons_append, List.cons_append, List.cons.injEq] at h
      have := ih (fun hm => hx (List.mem_cons_of_mem a hm))
        (fun hm => hy (List.mem_cons_of_mem b hm)) h.2
      exact ⟨by rw [h.1, this.1], this.2⟩

theorem flatten32_length {l : List (List Nat)} (h : ∀ t ∈ l, t.length = 32) :
    l.flatten.length = 32 * l.length := by
  induction l with
  | nil => simp
  | cons a as ih =>
    have := ih fun t ht => h t (List.mem_cons_of_mem a ht)
    simp [h a (List.mem_cons_self a as), this]
    ring

/-- Concatenation of equal-length blocks is injective given the block
count. -/
theorem flatten32_inj : ∀ {l1 l2 : List (List Nat)},
    (∀ t ∈ l1, t.length = 32) → (∀ t ∈ l2, t.length = 32) →
    l1.length = l2.length → l1.flatten = l2.flatten → l1 = l2 := by
  intro l1
  induction l1 with
  | nil =>
    intro l2 _ _ hlen _
    exact (List.length_eq_zero.mp hlen.symm).symm ▸ rfl
  | cons a as ih =>
    intro l2 h1 h2 hlen hfl
    cases l2 with
    | nil => simp at hlen
    | cons b bs =>
      rw [List.flatten_cons, List.flatten_cons] at hfl
      have hab := List.append_inj hfl
        (by rw [h1 a (List.mem_cons_self a as), h2 b (List.mem_cons_self b bs)])
      have := ih (fun t ht => h1 t (List.mem_cons_of_mem a ht))
        (fun t ht => h2 t (List.mem_cons_of_mem b ht))
        (by simpa using hlen) hab.2
      rw [hab.1, this]

/-- Peeling an optional-`f64` presence-flag encoding off the front of a
byte stream is unambiguous for `u64`-bounded payloads. -/
theorem optF64Bytes_peel : ∀ {p1 p2 : Option Nat} {r1 r2 : List Nat},
    optU64 p1 = true → optU64 p2 = true →
    optF64Bytes p1 ++ r1 = optF64Bytes p2 ++ r2 → p1 = p2 ∧ r1 = r2 := by
  intro p1 p2 r1 r2 b1 b2 h
  cases p1 with
  | none =>
    cases p2 with
    | none => simpa [optF64Bytes] using h
    | some q => simp [optF64Bytes] at h
  | some p =>
    cases p2 with
    | none => simp [optF64Bytes] at h
    | some q =>
      simp only [optF64Bytes, List.cons_append, List.cons.injEq] at h
      have := List.append_inj h.2 (by rw [leBytes_length, leBytes_length])
      simp only [optU64, decide_eq_true_eq] at b1 b2
      have hpq : p = q := leBytes_inj (k := 8) (by simpa using b1) (by simpa using b2) this.1
      exact ⟨by rw [hpq], this.2⟩

theorem sideByte_inj : ∀ {s1 s2 : OrderSide}, sideByte s1 = sideByte s2 → s1 = s2 := by
  intro s1 s2 h
  cases s1 <;> cases s2 <;> simp [sideByte] at h ⊢

theorem typeByte_inj : ∀ {t1 t2 : OrderType}, typeByte t1 = typeByte t2 → t1 = t2 := by
  intro t1 t2 h
  cases t1 <;> cases t2 <;> simp [typeByte] at h ⊢

theorem pow256_8 : (256 : Nat) ^ 8 = 2 ^ 64 := by norm_num

/-- `Order::to_bytes` is injective on orders whose symbol and time-in-force
contain no NUL byte and whose numeric fields fit their machine width. -/
theorem to_bytes_inj {o1 o2 : Order}
    (w1 : orderWf o1 = true) (w2 : orderWf o2 = true)
    (hs1 : 0 ∉ o1.symbol) (hs2 : 0 ∉ o2.symbol)
    (ht1 : 0 ∉ o1.time_in_force) (ht2 : 0 ∉ o2.time_in_force)
    (h : o1.to_bytes = o2.to_bytes) : o1 = o2 := by
  simp only [orderWf, Bool.and_eq_true, decide_eq_true_eq] at w1 w2
  rw [Order.to_bytes, Order.to_bytes] at h
  obtain ⟨hsym, h⟩ := nulSep hs1 hs2 h
  rw [List.cons.injEq, List.cons.injEq] at h
  obtain ⟨hside, htype, h⟩ := h
  simp only [List.append_assoc] at h
  have hq := List.append_inj h (by rw [leBytes_length, leBytes_length])
  have hqv : o1.quantity = o2.quantity :=
    leBytes_inj (pow256_8 ▸ w1.1.1) (pow256_8 ▸ w2.1.1) hq.1
  obtain ⟨hpr, h2⟩ := optF64Bytes_peel w1.1.2 w2.1.2 hq.2
  obtain ⟨hsp, h3⟩ := optF64Bytes_peel w1.2 w2.2 h2
  obtain ⟨htif, hcid⟩ := nulSep ht1 ht2 h3
  cases o1
  cases o2
  simp only [Order.mk.injEq]
  exact ⟨hsym, sideByte_inj hside, typeByte_inj htype, hqv, hpr, hsp, htif, hcid⟩

/-! ## Claim C6 -/

/-- Claim C6 (amended): for two PCOs whose symbol and time-in-force contain
no NUL byte, whose numeric fields and byte-array fields have their machine
widths, and whose execution traces have equal length, equal signing
messages force every signed field (order, strategy hash, input hash,
trace, timestamp, agent key) to be equal -- contrapositively, any change
to one of those fields under these provisos changes the message and so
invalidates the signature.  Without the trace-length proviso the claim is
false (see the counterexample). -/
theorem build_message_inj {p1 p2 : ProofCarryingOrder}
    (w1 : pcoWf p1 = true) (w2 : pcoWf p2 = true)
    (hs1 : 0 ∉ p1.order.symbol) (hs2 : 0 ∉ p2.order.symbol)
    (ht1 : 0 ∉ p1.order.time_in_force) (ht2 : 0 ∉ p2.order.time_in_force)
    (hlen : p1.execution_trace.length = p2.execution_trace.length)
    (h : p1.build_message = p2.build_message) :
    p1.order = p2.order ∧ p1.strategy_hash = p2.strategy_hash ∧
    p1.input_hash = p2.input_hash ∧ p1.execution_trace = p2.execution_trace ∧
    p1.timestamp = p2.timestamp ∧ p1.agent_pubkey = p2.agent_pubkey := by
  simp only [pcoWf, is32, Bool.and_eq_true, decide_eq_true_eq,
    List.all_eq_true] at w1 w2
  obtain ⟨⟨⟨⟨⟨ww1, wts1⟩, wsh1⟩, wih1⟩, wtr1⟩, wpk1⟩ := w1
  obtain ⟨⟨⟨⟨⟨ww2, wts2⟩, wsh2⟩, wih2⟩, wtr2⟩, wpk2⟩ := w2
  rw [ProofCarryingOrder.build_message, ProofCarryingOrder.build_message,
    build_message_static, build_message_static] at h
  have s1 := List.append_inj' h (by rw [wpk1, wpk2])
  have s2 := List.append_inj' s1.1 (by rw [leBytes_length, leBytes_length])
  have hts : p1.timestamp = p2.timestamp :=
    leBytes_inj (pow256_8 ▸ wts1) (pow256_8 ▸ wts2) s2.2
  have s3 := List.append_inj' s2.1
    (by rw [flatten32_length wtr1, flatten32_length wtr2, hlen])
  have htrace := flatten32_inj wtr1 wtr2 hlen s3.2
  have s4 := List.append_inj' s3.1 (by rw [wih1, wih2])
  have s5 := List.append_inj' s4.1 (by rw [wsh1, wsh2])
  have horder := to_bytes_inj ww1 ww2 hs1 hs2 ht1 ht2 s5.1
  exact ⟨horder, s5.2, s4.2, htrace, hts, s1.2⟩

/-- Claim C6 witness: the amended theorem applied to two concrete PCOs that
share every signed field but carry different signature bytes. -/
theorem build_message_inj_witness :
    pcoWf (pcoT 5) = true ∧ pcoWf pcoT5b = true ∧
    (pcoT 5).execution_trace = pcoT5b.execution_trace :=
  ⟨by decide, by decide,
    (build_message_inj (by decide) (by decide) (by decide) (by decide)
      (by decide) (by decide) (by decide) rfl).2.2.2.1⟩

/-- Claim C6 counterexample: two PCOs that differ in the client order id,
strategy hash, input hash and execution trace yet produce the *same*
signing message (the unterminated client order id absorbs the first PCO's
strategy hash, and the remaining 32-byte fields shift one slot) -- so a
signature for one verifies for the other and the claim as stated is
false. -/
theorem build_message_collision :
    p1c6.build_message = p2c6.build_message ∧
    p1c6.order ≠ p2c6.order ∧ p1c6.strategy_hash ≠ p2c6.strategy_hash ∧
    p1c6.input_hash ≠ p2c6.input_hash ∧
    p1c6.execution_trace ≠ p2c6.execution_trace ∧
    p1c6.agent_pubkey = p2c6.agent_pubkey ∧
    pcoWf p1c6 = true ∧ pcoWf p2c6 = true := by decide

/-! ## Claim C1 -/

/-- Claim C1 (code bug): a PCO whose timestamp lies 1 second in the future
-- well inside the 60-second tolerance that both the claim and the
source's own comment (`"with small tolerance"`) grant -- is *rejected* by
`verify_timestamp`: after the future check passes, the age computation
`now - self.timestamp` runs on `u64` with `timestamp > now`, wrapping to
`2^64 - 1` (release profile; the debug profile panics), which exceeds any
`max_age_secs`, so the code reports "too old" instead of `Ok(true)`. -/
theorem verify_timestamp_future_rejected :
    (pcoT 1000001).verify_timestamp 1000000 3600 = .error .timestampError ∧
    (pcoT 1000001).timestamp ≤ 1000000 + 60 ∧
    wrapSub 1000000 (pcoT 1000001).timestamp = 2 ^ 64 - 1 :=
  ⟨rfl, by decide, by decide⟩

/-! ## Claim C2 -/

/-- Claim C2 counterexample: at a concrete PCO the layout the claim
describes (every string field NUL-terminated, including the client order
id) differs from the message the code builds -- `Order::to_bytes` does not
terminate the trailing client order id. -/
theorem claimedMessage_ne_build_message :
    claimedMessage (pcoT 1000) ≠ (pcoT 1000).build_message := by decide

/-- Claim C2 (amended): the signing message is exactly the concatenation
the spec describes -- NUL-terminated symbol and time-in-force, side and
type bytes, fixed-width little-endian numerics with one-byte presence
flags for the optional prices, then strategy hash, input hash, the trace
entries in order, the 8-byte little-endian timestamp and the agent public
key -- with the single correction that the trailing client order id is
not NUL-terminated. -/
theorem build_message_layout (p : ProofCarryingOrder) :
    p.build_message = amendedMessage p := by
  simp [ProofCarryingOrder.build_message, build_message_static, Order.to_bytes,
    amendedMessage, List.append_assoc]

/-! ## Claim C3 -/

/-- Claim C3 counterexample: starting from a composer holding subgraphs `a`
and `b`, the very same `connect(a, "o", b, "i")` call succeeds twice, and
the resulting connection list carries two connections targeting the same
`(to_graph, to_input)` pair -- `GraphComposer::connect` performs no
single-writer check. -/
theorem composer_connect_duplicate :
    s0c3.connect metaA.hash [111] metaB.hash [105] = .ok s1c3 ∧
    s1c3.connect metaA.hash [111] metaB.hash [105] = .ok s2c3 ∧
    (s2c3.connections.filter fun c =>
      decide (c.to_graph = metaB.hash ∧ c.to_input = [105])).length = 2 :=
  ⟨rfl, rfl, rfl⟩

/-- Claim C3 (amended): `GraphComposer::connect` enforces no single-writer
invariant at all: whenever both graphs are imported and the named output
and input ports exist, the call succeeds and appends the connection,
*regardless* of any existing connection to the same
`(to_graph, to_input)` target. -/
theorem composer_connect_appends (s : GraphComposer) (fg fo tg ti : List Nat)
    (mf mt : SubgraphMetadata)
    (hf : lookupGraph s.graphs fg = some mf)
    (htg : lookupGraph s.graphs tg = some mt)
    (ho : fo ∈ mf.outputs) (hi : ti ∈ mt.inputs) :
    s.connect fg fo tg ti = .ok { s with connections := s.connections ++
      [{ from_graph := fg, from_output := fo, to_graph := tg, to_input := ti }] } := by
  rw [GraphComposer.connect, hf, htg]
  simp [ho, hi]

/-- Claim C3 witness: the amended theorem applied to the one-connection
state, exhibiting the duplicate-target success concretely. -/
theorem composer_connect_appends_witness :
    lookupGraph s1c3.graphs h01 = some metaA ∧
    s1c3.connect h01 [111] h02 [105] = .ok s2c3 :=
  ⟨rfl, composer_connect_appends s1c3 h01 [111] h02 [105] metaA metaB rfl rfl
    (by decide) (by decide)⟩

/-! ## Claim C4 -/

/-- The loop of `verify_same_execution` accepts exactly the batches whose
every element matches the reference in the three identity fields and lies
within 1 second of the *reference's* timestamp. -/
theorem sameExecChecks_ok (r : ProofCarryingOrder) (l : List ProofCarryingOrder) :
    sameExecChecks r l = .ok true ↔
      ∀ p ∈ l, p.strategy_hash = r.strategy_hash ∧ p.input_hash = r.input_hash ∧
        p.agent_pubkey = r.agent_pubkey ∧ tsDiff p r ≤ 1 := by
  induction l with
  | nil => simp [sameExecChecks]
  | cons q rest ih =>
    rw [sameExecChecks]
    by_cases h1 : q.strategy_hash = r.strategy_hash
    · by_cases h2 : q.input_hash = r.input_hash
      · by_cases h3 : q.agent_pubkey = r.agent_pubkey
        · by_cases h4 : tsDiff q r ≤ 1
          · simp [h1, h2, h3, h4, Nat.not_lt.mpr h4, ih]
          · simp [h1, h2, h3, if_pos (Nat.lt_of_not_le h4), h4]
        · simp [h1, h2, h3]
      · simp [h1, h2]
    · simp [h1]

/-- Claim C4 (amended): `verify_same_execution` compares every later PCO
against `pcos[0]` only: a batch is accepted exactly when every element
shares the reference's strategy hash, input hash and agent key and has a
timestamp within 1 second *of the reference* -- so two non-reference PCOs
may differ by up to 2 seconds.  (Batches of fewer than two PCOs are
accepted outright.)  A batch containing a PCO whose `input_hash` differs
from the reference's is rejected, as the claim states. -/
theorem verify_same_execution_iff :
    (∀ v : PcoVerifier, v.verify_same_execution [] = .ok true) ∧
    ∀ (v : PcoVerifier) (r : ProofCarryingOrder) (rest : List ProofCarryingOrder),
      v.verify_same_execution (r :: rest) = .ok true ↔
        ∀ p ∈ rest, p.strategy_hash = r.strategy_hash ∧ p.input_hash = r.input_hash ∧
          p.agent_pubkey = r.agent_pubkey ∧ tsDiff p r ≤ 1 := by
  refine ⟨fun v => rfl, fun v r rest => ?_⟩
  rw [PcoVerifier.verify_same_execution]
  cases rest with
  | nil => simp
  | cons q rest2 =>
    simp only [List.length_cons]
    rw [if_neg (by omega)]
    exact sameExecChecks_ok r (q :: rest2)

/-- Claim C4 witness: a two-element batch sharing all identity fields and
timestamps passes, via the amended characterization. -/
theorem verify_same_execution_iff_witness :
    PcoVerifier.new.verify_same_execution [pcoT 100, pcoT 100] = .ok true :=
  (verify_same_execution_iff.2 PcoVerifier.new (pcoT 100) [pcoT 100]).mpr (by decide)

/-- Claim C4 counterexample: the batch `[t=100, t=101, t=99]` (identical
strategy hash, input hash and agent key) is *accepted*, yet its second and
third PCOs have timestamps 2 seconds apart -- the claimed every-two-PCOs
1-second bound does not hold of accepted batches. -/
theorem verify_same_execution_pairwise_violation :
    PcoVerifier.new.verify_same_execution [pcoT 100, pcoT 101, pcoT 99] = .ok true ∧
    tsDiff (pcoT 101) (pcoT 99) = 2 :=
  ⟨rfl, rfl⟩

/-! ## Claim C5 -/

/-- Claim C5 counterexample: a verifier with a *non-empty* registered
strategy set verifies a PCO whose strategy hash is not a member: the
membership failure produces only the advisory warning, and `is_valid`
is still `true` -- the registered set does not act as a whitelist
feeding `is_valid`. -/
theorem verify_whitelist_not_enforced :
    (v5.verify (.ok true) 1000 (pcoT 1000)).is_valid = true ∧
    (v5.verify (.ok true) 1000 (pcoT 1000)).strategy_known = false ∧
    v5.known_strategies ≠ [] ∧
    (v5.verify (.ok true) 1000 (pcoT 1000)).warnings = [.unknownStrategy] := by
  decide

/-- Claim C5 (amended): strategy/agent membership never feeds `is_valid`:
`is_valid` is exactly the conjunction of the signature, timestamp and
trace checks, whether or not known sets are registered; a membership
failure surfaces solely as an advisory warning, and that warning is
emitted exactly when the corresponding registered set is non-empty and
the PCO's value is not a member. -/
theorem verify_membership_advisory (v : PcoVerifier) (sigResult : Except PcoErr Bool)
    (now : Nat) (pco : ProofCarryingOrder) :
    ((v.verify sigResult now pco).is_valid =
      ((v.verify sigResult now pco).signature_valid &&
       (v.verify sigResult now pco).timestamp_valid &&
       (v.verify sigResult now pco).trace_valid)) ∧
    ((v.verify sigResult now pco).strategy_known =
      decide (pco.strategy_hash ∈ v.known_strategies)) ∧
    ((v.verify sigResult now pco).agent_known =
      decide (pco.agent_pubkey ∈ v.known_agents)) ∧
    (WarnMsg.unknownStrategy ∈ (v.verify sigResult now pco).warnings ↔
      pco.strategy_hash ∉ v.known_strategies ∧ v.known_strategies ≠ []) ∧
    (WarnMsg.unknownAgent ∈ (v.verify sigResult now pco).warnings ↔
      pco.agent_pubkey ∉ v.known_agents ∧ v.known_agents ≠ []) := by
  refine ⟨rfl, rfl, rfl, ?_, ?_⟩ <;>
    by_cases hs : pco.strategy_hash ∈ v.known_strategies <;>
    by_cases ha : pco.agent_pubkey ∈ v.known_agents <;>
    by_cases he : v.known_strategies = [] <;>
    by_cases he2 : v.known_agents = [] <;>
    simp [PcoVerifier.verify, hs, ha, he, he2, List.isEmpty_iff]

/-! ## Claim C7 -/

/-- Sequentially absorbing `f x` for each element equals appending the
flattened image: relates the incremental `Sha256::update` loop to the
spec's description of the hash input as one concatenation. -/
theorem foldl_absorb {α : Type} (f : α → List Nat) :
    ∀ (l : List α) (init : List Nat),
      l.foldl (fun acc x => acc ++ f x) init = init ++ (l.map f).flatten := by
  intro l
  induction l with
  | nil => intro init; simp
  | cons a as ih => intro init; simp [ih]

/-- Claim C7 (amended): the composed-graph hash is SHA-256 over exactly the
stream the spec describes -- name bytes, each subgraph's hash in stored
order, each connection's four identifying fields in list order.  Because
the string fields inside that stream are neither length-prefixed nor
terminated, the stream does not determine the wiring: two graphs with
identical name and subgraphs but different connection lists can produce
the same stream and therefore the same hash (see the counterexample);
distinct wirings are guaranteed distinct hashes only when their streams
differ, and then only up to SHA-256 collision. -/
theorem calculate_hash_spec_stream (g : ComposedGraph) :
    g.calculate_hash = sha256 (specHashStream g) := by
  rw [ComposedGraph.calculate_hash, specHashStream, foldl_absorb, foldl_absorb,
    List.append_assoc]

set_option maxRecDepth 4096 in
/-- Claim C7 counterexample: `cgA` and `cgB` share name and subgraph list
and differ in their wiring (`F.x -> G.y` versus `F.xA -> G2.""`), yet
their hash input streams -- and hence their content hashes -- coincide,
so the claim that different wiring forces different hashes is false. -/
theorem calculate_hash_collision :
    cgA.name = cgB.name ∧ cgA.subgraphs = cgB.subgraphs ∧
    cgA.connections ≠ cgB.connections ∧
    cgA.calculate_hash = cgB.calculate_hash := by
  refine ⟨rfl, rfl, by decide, ?_⟩
  rw [ComposedGraph.calculate_hash, ComposedGraph.calculate_hash]
  exact congrArg sha256 (by decide)

/-! ## Claim C9 -/

/-- Claim C9: `PcoBuilder::build` fails with `InvalidExecutionTrace`
exactly when no nodes were recorded and otherwise succeeds, and
`BatchPcoBuilder::build_for_order` fails with `InvalidExecutionTrace`
exactly when the combined trace (shared prefix plus hashed per-order
suffix) is empty, i.e. when zero nodes were recorded; every PCO either
builder produces carries the non-empty recorded trace. -/
theorem builder_empty_trace_characterization :
    (∀ (b : PcoBuilder) (o : Order) (sh : List Nat) (md : MarketDataInput) (now : Nat),
      (b.build o sh md now = .error .invalidExecutionTrace ↔ b.execution_trace = []) ∧
      (b.execution_trace ≠ [] →
        b.build o sh md now =
          .ok (ProofCarryingOrder.new o sh md.hash b.execution_trace b.signing_key now)) ∧
      ∀ pco, b.build o sh md now = .ok pco →
        pco.execution_trace = b.execution_trace ∧ pco.execution_trace ≠ []) ∧
    ∀ (bb : BatchPcoBuilder) (o : Order) (md : MarketDataInput)
      (add : List (List Nat)) (now : Nat),
      (bb.build_for_order o md add now = .error .invalidExecutionTrace ↔
        bb.base_trace = [] ∧ add = []) ∧
      ∀ pco, bb.build_for_order o md add now = .ok pco →
        pco.execution_trace = bb.base_trace ++ add.map hash_node_name ∧
          pco.execution_trace ≠ [] := by
  constructor
  · intro b o sh md now
    by_cases hb : b.execution_trace = []
    · simp [PcoBuilder.build, hb]
    · simp only [PcoBuilder.build, List.isEmpty_iff, hb, if_neg hb]
      refine ⟨by simp [hb], fun _ => rfl, fun pco hpco => ?_⟩
      cases hpco
      exact ⟨rfl, hb⟩
  · intro bb o md add now
    by_cases hb : bb.base_trace ++ add.map hash_node_name = []
    · rw [List.append_eq_nil] at hb
      simp [BatchPcoBuilder.build_for_order, hb.1, hb.2, List.map_eq_nil_iff.mp hb.2]
    · simp only [BatchPcoBuilder.build_for_order, List.isEmpty_iff, if_neg hb]
      refine ⟨by simp [List.append_eq_nil, List.map_eq_nil_iff] at hb ⊢; tauto,
        fun pco hpco => ?_⟩
      cases hpco
      exact ⟨rfl, hb⟩

/-- Claim C9 witness: a builder with zero recorded nodes fails with
`InvalidExecutionTrace`, via the characterization. -/
theorem builder_empty_trace_witness :
    emptyBuilder.build cOrder h65 md0 5 = .error .invalidExecutionTrace ∧
    oneNodeBuilder.execution_trace ≠ [] :=
  ⟨(builder_empty_trace_characterization.1 emptyBuilder cOrder h65 md0 5).1.mpr rfl,
   by decide⟩

/-! ## Claim C10 -/

/-- Claim C10 counterexample: a connect call from an *unregistered* source
node onto an input that already has a connection returns `NodeNotFound`,
not `AlreadyConnected` (the state is still unchanged) -- so "a connect
call targeting that same input returns AlreadyConnected" does not hold of
every such call. -/
theorem linker_connect_wrong_error :
    (lookupInput linkerS (badConn.to_node, badConn.to_port)).isSome = true ∧
    linkerS.connect badConn = (.error .nodeNotFound, linkerS) :=
  ⟨rfl, rfl⟩

/-- Claim C10 (amended): when the target input `(to_node, to_port)` is
already bound, every `connect` call targeting it fails and leaves the
linker state -- connection list and recorded input sources alike --
unchanged, so the first connection remains in effect; when the call
moreover names a registered source node and a valid output port (the
target node and port are valid in every state `connect` itself created
the binding in), the reported error is exactly `AlreadyConnected`. -/
theorem linker_connect_already_connected (s : GraphLinker) (c : Connection)
    (hb : (lookupInput s (c.to_node, c.to_port)).isSome = true) :
    ((s.connect c).2 = s ∧ ∃ e, (s.connect c).1 = .error e) ∧
    ∀ fn tn, lookupNode s c.from_node = some fn → c.from_port < fn.outputs.length →
      lookupNode s c.to_node = some tn → c.to_port < tn.inputs.length →
      s.connect c = (.error .alreadyConnected, s) := by
  constructor
  · rw [GraphLinker.connect]
    cases hf : lookupNode s c.from_node with
    | none => exact ⟨rfl, _, rfl⟩
    | some fn =>
      cases htn : lookupNode s c.to_node with
      | none => exact ⟨rfl, _, rfl⟩
      | some tn =>
        by_cases h1 : c.from_port ≥ fn.outputs.length
        · simp [h1]
        · by_cases h2 : c.to_port ≥ tn.inputs.length
          · simp [h1, h2]
          · simp [h1, h2, hb]
  · intro fn tn hf hfp htn htp
    rw [GraphLinker.connect, hf, htn]
    simp [Nat.not_le.mpr hfp, Nat.not_le.mpr htp, hb]

/-- Claim C10 witness: the amended theorem applied to a state with both
nodes registered and the input bound: the duplicate call reports
`AlreadyConnected` and the state is returned unchanged. -/
theorem linker_connect_already_connected_witness :
    linkerS2.connect conn2 = (.error .alreadyConnected, linkerS2) :=
  (linker_connect_already_connected linkerS2 conn2 rfl).2 nodeA nodeB rfl
    (by decide) rfl (by decide)

/-! ## Claim C8 -/

theorem decodeSeq_decodeByte {l : List Nat} (h : allBytes l = true) :
    decodeSeq decodeByte (l.map Json.unum) = some l := by
  induction l with
  | nil => rfl
  | cons a as ih =>
    simp only [allBytes, List.all_cons, Bool.and_eq_true, decide_eq_true_eq] at h
    simp [decodeSeq, decodeByte, h.1, ih h.2]

theorem decodeBytes_bytesJson {n : Nat} {l : List Nat} (h : allBytes l = true)
    (hn : l.length = n) : decodeBytes n (bytesJson l) = some l := by
  simp [decodeBytes, bytesJson, decodeSeq_decodeByte h, hn]

theorem decodeTrace_encode {tr : List (List Nat)}
    (h : ∀ t ∈ tr, allBytes t = true ∧ t.length = 32) :
    decodeTrace (.arr (tr.map bytesJson)) = some tr := by
  induction tr with
  | nil => rfl
  | cons a as ih =>
    have ha := h a (List.mem_cons_self a as)
    have hrest := ih fun t ht => h t (List.mem_cons_of_mem a ht)
    simp only [decodeTrace] at hrest ⊢
    simp [decodeSeq, decodeBytes_bytesJson ha.1 ha.2, hrest]

set_option maxHeartbeats 1600000 in
theorem decodeOrder_orderJson {o : Order} (hq : finiteBits o.quantity = true)
    (hp : optFinite o.price = true) (hsp : optFinite o.stop_price = true) :
    decodeOrder (orderJson o) = some o := by
  obtain ⟨symbol, side, order_type, quantity, price, stop_price, tif, cid⟩ := o
  cases side <;> cases order_type <;> cases price <;> cases stop_price <;>
    simp_all [decodeOrder, orderJson, jlook, decodeStr, decodeSide, decodeType,
      decodeF64, decodeOptF64, f64Json, optF64Json, sideJson, typeJson, optFinite,
      keySymbol, keySide, keyOrderType, keyQuantity, keyPrice, keyStopPrice,
      keyTif, keyCid, strBuy, strSell, strMarket, strLimit, strStopLoss,
      strTakeProfit]

/-- Claim C8 (amended): for every PCO whose float fields are finite doubles
and whose integer fields have their machine widths (every value a
signed-then-serialized Rust PCO can hold *except* those carrying a NaN or
infinite float), decoding the encoded JSON document restores the PCO
exactly -- all fields compare equal, so any verification of the decoded
PCO gives the identical result.  For non-finite floats the round trip
fails (see the counterexample). -/
theorem from_json_to_json {p : ProofCarryingOrder} (h : pcoJsonWf p = true) :
    ProofCarryingOrder.from_json p.to_json = some p := by
  simp only [pcoJsonWf, is32, Bool.and_eq_true, decide_eq_true_eq,
    List.all_eq_true] at h
  obtain ⟨⟨⟨⟨⟨⟨⟨⟨⟨⟨⟨⟨hq, hp⟩, hsp⟩, hts⟩, hshb⟩, hsh32⟩, hihb⟩, hih32⟩, htr⟩,
    hpkb⟩, hpk32⟩, hsigb⟩, hsig64⟩ := h
  rw [ProofCarryingOrder.to_json, ProofCarryingOrder.from_json]
  simp [jlook, decodeOrder_orderJson hq hp hsp,
    decodeBytes_bytesJson hshb hsh32, decodeBytes_bytesJson hihb hih32,
    decodeBytes_bytesJson hpkb hpk32, decodeBytes_bytesJson hsigb hsig64,
    decodeTrace_encode htr, decodeU64, hts,
    keyOrder, keyStrategyHash, keyInputHash, keyTrace, keyTimestamp,
    keyPubkey, keySignature]
  rw [if_pos (show p.timestamp < 18446744073709551616 from hts)]
  rfl

/-- Claim C8 witness: the amended round trip at a concrete well-formed
PCO. -/
theorem from_json_to_json_witness :
    pcoJsonWf (pcoT 1000) = true ∧
    ProofCarryingOrder.from_json (pcoT 1000).to_json = some (pcoT 1000) :=
  ⟨by decide, from_json_to_json (by decide)⟩

/-- Claim C8 counterexample: a PCO whose quantity carries the NaN bit
pattern -- a value the Rust type admits and the signature covers like any
other -- does not survive the round trip: `serde_json` writes `null` for
the non-finite float, and `from_json` then fails, so
`decode(encode(pco))` neither verifies nor compares equal. -/
theorem nan_breaks_roundtrip :
    ProofCarryingOrder.from_json nanPco.to_json = none ∧
    finiteBits nanPco.order.quantity = false :=
  ⟨by decide, by decide⟩

end ZeroHb
